import Mathlib

/-!
Shallow embedding of the validation and error-classification core of
`key-aws-exporter` (Go): the error classifier, the single-endpoint S3
validator with its lazily cached probe client, the validator manager,
the HTTP handlers for `/validate` and `/validate/{name}`, and the
background auto-validation scheduler of `cmd/exporter/main.go`.
-/

namespace KeyAwsExporter

/-- A Go error value as seen by `classifyValidationError`: the structural
facts that `errors.Is`/`errors.As` can extract from it, plus its display
string (`%v`). `netError = some b` models `errors.As(err, &netErr)`
succeeding with `netErr.Timeout() = b`; `apiErrorCode = some c` models
`errors.As(err, &apiErr)` succeeding with `apiErr.ErrorCode() = c`;
`httpStatus = some n` models `errors.As(err, &respErr)` succeeding with
`respErr.HTTPStatusCode() = n`. -/
structure GoError where
  msg : String := ""
  isDeadlineExceeded : Bool := false
  isCanceled : Bool := false
  netError : Option Bool := none
  apiErrorCode : Option String := none
  httpStatus : Option Nat := none
  deriving Repr, DecidableEq

/-- `strings.ToLower` restricted to the ASCII range (all API error codes
compared against are ASCII). -/
def goToLower (s : String) : String :=
  s.map Char.toLower

/-- Error type tags, from the constants at the top of the validator file. -/
def errorTypeUnknown : String := "unknown"

def errorTypeConfig : String := "config_error"

def errorTypeTimeout : String := "timeout"

def errorTypeCanceled : String := "canceled"

def errorTypeNetwork : String := "network"

def errorTypeForbidden : String := "access_denied"

def errorTypeNotFound : String := "bucket_not_found"

/-- The tail of `classifyValidationError` (the `*smithyhttp.ResponseError`
check followed by the final `return errorTypeUnknown`): control reaches it
when no earlier check returned, both when `errors.As(err, &apiErr)` failed
and when the `switch` on the API code matched no case. -/
def classifyHTTPFallback (e : GoError) : String :=
  match e.httpStatus with
  | some status =>
    if status = 403 then errorTypeForbidden
    else if status = 404 then errorTypeNotFound
    else if status = 504 then errorTypeTimeout
    else errorTypeUnknown
  | none => errorTypeUnknown

/-- Embedding of `classifyValidationError` (pkg/s3 validator source).
`none` models a nil error. The chain of `errors.Is` / `errors.As` checks
is transcribed in source order; the `switch` on the lowered API code falls
through to the HTTP-status check when no case matches, exactly as the Go
`switch` with no `default` does. -/
def classifyValidationError : Option GoError → String
  | none => ""
  | some e =>
    if e.isDeadlineExceeded then errorTypeTimeout
    else if e.isCanceled then errorTypeCanceled
    else
      match e.netError with
      | some timeoutFlag => if timeoutFlag then errorTypeTimeout else errorTypeNetwork
      | none =>
        match e.apiErrorCode with
        | some rawCode =>
          let code := goToLower rawCode
          if code = "accessdenied" ∨ code = "invalidaccesskeyid" ∨
              code = "signaturedoesnotmatch" then errorTypeForbidden
          else if code = "nosuchbucket" ∨ code = "nosuchbucketpolicy" then
            errorTypeNotFound
          else if code = "expiredtoken" then "token_expired"
          else if code = "slowdown" ∨ code = "throttling" ∨
              code = "throttlingexception" then "throttled"
          else if code = "requesttimeout" then errorTypeTimeout
          else classifyHTTPFallback e
        | none => classifyHTTPFallback e

/-- Modelled from the spec's words (§4.1): the six-step, first-match-wins
decision procedure the specification gives for `classify(error)`.
Written independently of `classifyValidationError` to compare the two:
step 4 matches the lowered API code case-insensitively against the listed
code groups, and an unlisted code falls to step 5; step 5 inspects the
HTTP status; step 6 is the catch-all `unknown`. -/
def classifySpecProcedure : Option GoError → String
  | none => ""
  | some e =>
    -- step 1: deadline/timeout-exceeded sentinel
    if e.isDeadlineExceeded then "timeout"
    -- step 2: cancellation sentinel
    else if e.isCanceled then "canceled"
    else
      -- step 3: network-level error exposing a timeout flag
      match e.netError with
      | some flagged => if flagged then "timeout" else "network"
      | none =>
        -- step 4: remote API error code, case-insensitive groups
        match e.apiErrorCode with
        | some rawCode =>
          let code := goToLower rawCode
          if ["accessdenied", "invalidaccesskeyid",
              "signaturedoesnotmatch"].contains code then "access_denied"
          else if ["nosuchbucket", "nosuchbucketpolicy"].contains code then
            "bucket_not_found"
          else if ["expiredtoken"].contains code then "token_expired"
          else if ["slowdown", "throttling",
              "throttlingexception"].contains code then "throttled"
          else if ["requesttimeout"].contains code then "timeout"
          else classifySpecSteps56 e
        | none => classifySpecSteps56 e
where
  /-- Steps 5 and 6 of the spec's procedure: HTTP status, then `unknown`. -/
  classifySpecSteps56 (e : GoError) : String :=
    if e.httpStatus = some 403 then "access_denied"
    else if e.httpStatus = some 404 then "bucket_not_found"
    else if e.httpStatus = some 504 then "timeout"
    else "unknown"

/-- Embedding of the `ValidationResult` struct. Times are modelled as
naturals (milliseconds of logical wall time); `ResponseTimeMs` is an
`int64` in Go, hence `Int` here. -/
structure ValidationResult where
  isValid : Bool := false
  message : String := ""
  checkedAt : Nat := 0
  responseTimeMs : Int := 0
  errorType : String := ""
  duration : Nat := 0
  deriving Repr, DecidableEq

/-- A Go `context.Context` as far as this code observes it: whether it has
been canceled, and its deadline (in logical milliseconds), if any. -/
structure GoContext where
  canceled : Bool := false
  deadline : Option Nat := none
  deriving Repr, DecidableEq

/-- `context.WithTimeout(ctx, timeout)`: the child context carries the
tighter of the parent's deadline and the new timeout. -/
def contextWithTimeout (ctx : GoContext) (timeout : Nat) : GoContext :=
  { ctx with
    deadline :=
      match ctx.deadline with
      | none => some timeout
      | some d => some (min d timeout) }

/-- Outcome of one invocation of the client-build hook `newClient`:
either a built client (identified by a numeral) or a build error. -/
inductive BuildOutcome where
  | ok (clientId : Nat)
  | fail (e : GoError)
  deriving Repr, DecidableEq

/-- The environment a validator runs against: the client-build hook
(`newClient`), indexed by the derived context and by how many times the
hook has been invoked so far on this validator (so a failing build may be
followed by a succeeding one), and the probe operation (`ListObjectsV2`),
returning `none` on success and `some e` on failure. -/
structure ProbeEnv where
  build : GoContext → Nat → BuildOutcome
  probe : GoContext → Nat → Option GoError

/-- The mutable slot of an `S3Validator`: the lazily built, cached probe
client (`v.client`), `none` until a build succeeds. -/
structure ValidatorState where
  client : Option Nat := none
  deriving Repr, DecidableEq

/-- Embedding of `(*S3Validator).getClient`: return the cached client if
present; otherwise invoke the build hook, cache the client on success and
cache nothing on failure. Returns the outcome, the updated slot, and the
updated count of build-hook invocations. -/
def getClient (env : ProbeEnv) (ctx : GoContext) (s : ValidatorState)
    (builds : Nat) : Except GoError Nat × ValidatorState × Nat :=
  match s.client with
  | some c => (Except.ok c, s, builds)
  | none =>
    match env.build ctx builds with
    | BuildOutcome.ok c => (Except.ok c, { client := some c }, builds + 1)
    | BuildOutcome.fail e => (Except.error e, s, builds + 1)

/-- Everything one call to `ValidateKeys` produces: the returned result,
the validator's updated client slot, the updated build-hook invocation
count, and how many times the probe (`ListObjectsV2`) was issued during
the call. -/
structure ValidateOutcome where
  result : ValidationResult
  state : ValidatorState
  builds : Nat
  probes : Nat
  deriving Repr, DecidableEq

/-- Embedding of `(*S3Validator).ValidateKeys`. `now` is the wall-clock
reading at entry (`time.Now()`, stored into `CheckedAt`) and `elapsed`
the monotonic duration measured by the deferred timer (`time.Since`,
non-negative by the monotonic clock), both supplied by the caller. -/
def ValidateKeys (env : ProbeEnv) (s : ValidatorState) (builds : Nat)
    (ctx : GoContext) (timeout : Nat) (now : Nat) (elapsed : Nat) :
    ValidateOutcome :=
  let cctx := contextWithTimeout ctx timeout
  match getClient env cctx s builds with
  | (Except.error e, s2, b2) =>
    { result :=
        { isValid := false
          message := "Failed to create AWS client: " ++ e.msg
          errorType := errorTypeConfig
          checkedAt := now
          responseTimeMs := (elapsed : Int)
          duration := elapsed }
      state := s2, builds := b2, probes := 0 }
  | (Except.ok c, s2, b2) =>
    match env.probe cctx c with
    | some e =>
      { result :=
          { isValid := false
            message := "S3 validation failed: " ++ e.msg
            errorType := classifyValidationError (some e)
            checkedAt := now
            responseTimeMs := (elapsed : Int)
            duration := elapsed }
        state := s2, builds := b2, probes := 1 }
    | none =>
      { result :=
          { isValid := true
            message := "AWS credentials are valid"
            errorType := ""
            checkedAt := now
            responseTimeMs := (elapsed : Int)
            duration := elapsed }
        state := s2, builds := b2, probes := 1 }

/-- Embedding of `(*S3Validator).HealthCheck`. -/
def HealthCheck (env : ProbeEnv) (s : ValidatorState) (builds : Nat)
    (ctx : GoContext) (timeout : Nat) (now : Nat) (elapsed : Nat) : Bool :=
  (ValidateKeys env s builds ctx timeout now elapsed).result.isValid

/-- A registered validator, seen through the `bucketValidator` interface
of the manager: `ValidateKeys(ctx, timeout) -> *ValidationResult`. -/
def BucketValidator : Type := GoContext → Nat → ValidationResult

/-- Embedding of `ValidatorManager`: the endpoint-name → validator map
(modelled as an association list with distinct names, as a Go map has)
and the configured per-probe timeout. -/
structure ValidatorManager where
  validators : List (String × BucketValidator)
  timeout : Nat

/-- Embedding of the aggregate `ValidationResults`. -/
structure ValidationResults where
  timestamp : Nat
  results : List (String × ValidationResult)

/-- Embedding of `(*ValidatorManager).ValidateAll`: every registered
validator's `ValidateKeys` is run with the manager's timeout (one
concurrent task per endpoint in Go; the merge over the results channel
after `wg.Wait()` yields one entry per endpoint, so the aggregate is the
per-endpoint map of results, order immaterial). -/
def ValidateAll (vm : ValidatorManager) (ctx : GoContext) (now : Nat) :
    ValidationResults :=
  { timestamp := now
    results := vm.validators.map fun p => (p.1, p.2 ctx vm.timeout) }

/-- Embedding of `(*ValidatorManager).ValidateEndpoint`: look the name up
in the validator map; if absent, synthesize a not-found result; otherwise
delegate to the validator with the manager's timeout. -/
def ValidateEndpoint (vm : ValidatorManager) (ctx : GoContext)
    (endpointName : String) (now : Nat) : ValidationResult :=
  match vm.validators.lookup endpointName with
  | none =>
    { isValid := false
      message := "endpoint '" ++ endpointName ++ "' not found"
      checkedAt := now }
  | some v => v ctx vm.timeout

/-- Embedding of `(*ValidatorManager).GetEndpoints`. -/
def GetEndpoints (vm : ValidatorManager) : List String :=
  vm.validators.map Prod.fst

/-- Embedding of `(*ValidatorManager).GetEndpointCount`. -/
def GetEndpointCount (vm : ValidatorManager) : Nat :=
  vm.validators.length

/-- What the `/validate` (validate-all) handler produces, as far as the
claims observe it: the HTTP status code written, whether
`manager.ValidateAll` was run, and the summary `(total, successful,
failed)` of the JSON body when one was written. -/
structure AllHandlerOutcome where
  status : Nat
  ranValidateAll : Bool
  summary : Option (Nat × Nat × Nat)
  deriving Repr, DecidableEq

/-- Embedding of the handler returned by `NewValidateAllHandler`: reject
non-POST with 405 before any validation; otherwise run `ValidateAll`,
fold the per-endpoint results into the successful/failed counters exactly
as the Go loop increments them, and pick the status code (200 all
successful, 207 mixed, 401 all failed). -/
def handleValidateAll (vm : ValidatorManager) (method : String)
    (ctx : GoContext) (now : Nat) : AllHandlerOutcome :=
  if method ≠ "POST" then
    { status := 405, ranValidateAll := false, summary := none }
  else
    let results := ValidateAll vm ctx now
    let total := results.results.length
    let counts := results.results.foldl
      (fun acc p => if p.2.isValid then (acc.1 + 1, acc.2) else (acc.1, acc.2 + 1))
      ((0, 0) : Nat × Nat)
    let statusCode :=
      if counts.2 > 0 ∧ counts.1 > 0 then 207
      else if counts.2 > 0 then 401
      else 200
    { status := statusCode
      ranValidateAll := true
      summary := some (total, counts.1, counts.2) }

/-- What the `/validate/{name}` handler produces, as far as the claims
observe it: the HTTP status code, the endpoint name passed to
`ValidateEndpoint` (`none` when validation was never reached), and the
result written into the body, if any. -/
structure EndpointHandlerOutcome where
  status : Nat
  validated : Option String
  result : Option ValidationResult
  deriving Repr, DecidableEq

/-- Splitting a character list at every occurrence of the separator
character, keeping empty fields: the semantics of Go's `strings.Split`
for a one-character separator. -/
def splitOnChar (c : Char) : List Char → List (List Char)
  | [] => [[]]
  | x :: xs =>
    match splitOnChar c xs with
    | [] => [[]]
    | hd :: tl => if x = c then [] :: hd :: tl else (x :: hd) :: tl

/-- `strings.Split(path, "/")` as the handler calls it. -/
def goSplitSlash (s : String) : List String :=
  (splitOnChar '/' s.data).map fun l => String.mk l

/-- Embedding of the handler returned by `NewValidateEndpointHandler`:
405 for methods other than GET/POST; split the URL path on `/`; 400 when
there are fewer than three parts or the last part is empty; otherwise
validate the endpoint named by the last part and answer 200 when the
result is valid, 401 otherwise. -/
def handleValidateEndpoint (vm : ValidatorManager) (method : String)
    (path : String) (ctx : GoContext) (now : Nat) : EndpointHandlerOutcome :=
  if method ≠ "POST" ∧ method ≠ "GET" then
    { status := 405, validated := none, result := none }
  else
    let parts := goSplitSlash path
    if parts.length < 3 then
      { status := 400, validated := none, result := none }
    else
      let endpointName := parts.getLastD ""
      if endpointName = "" then
        { status := 400, validated := none, result := none }
      else
        let r := ValidateEndpoint vm ctx endpointName now
        { status := if r.isValid then 200 else 401
          validated := some endpointName
          result := some r }

/-- One execution of `runValidation` in `startAutoValidation`: the inner
`select` returns without validating when the context is already done;
otherwise `ValidateAll` is invoked once. Returns that invocation count. -/
def runValidationCount (ctxDone : Bool) : Nat :=
  if ctxDone then 0 else 1

/-- The ticker loop of `startAutoValidation`, counting `ValidateAll`
invocations over a bounded number of ticks. `done i` tells whether the
context's done channel is closed at the `i`-th logical observation point;
each loop iteration observes it once in the outer `select` (returning if
closed) and, on a tick, once more inside `runValidation`. -/
def autoValidationLoop (done : Nat → Bool) : Nat → Nat → Nat
  | _, 0 => 0
  | i, t + 1 =>
    if done i then 0
    else runValidationCount (done (i + 1)) + autoValidationLoop done (i + 2) t

/-- Embedding of `startAutoValidation` of `cmd/exporter/main.go`, as the
number of `ValidateAll` invocations the scheduler performs across `ticks`
ticker firings: a non-positive interval returns before starting the
goroutine (zero invocations ever); a positive interval runs
`runValidation` once up front and then once per tick until the context is
done. -/
def startAutoValidation (interval : Int) (done : Nat → Bool)
    (ticks : Nat) : Nat :=
  if interval ≤ 0 then 0
  else runValidationCount (done 0) + autoValidationLoop done 1 ticks

/-- The number of results with `is_valid = true` (the spec's `successful`
counter). -/
def countValid (rs : List (String × ValidationResult)) : Nat :=
  (rs.filter fun p => p.2.isValid).length

/-- The number of results with `is_valid = false` (the spec's `failed`
counter). -/
def countInvalid (rs : List (String × ValidationResult)) : Nat :=
  (rs.filter fun p => !p.2.isValid).length

/-- Modelled from the spec's words (§6, `POST /validate`): the HTTP status
as a pure function of the derived summary — 200 when `failed == 0`, 207
when both `successful > 0` and `failed > 0`, 401 when `successful == 0`
and `failed > 0`. -/
def statusFromSummary (successful failed : Nat) : Nat :=
  if failed = 0 then 200
  else if successful = 0 then 401
  else 207

/-! ## Concrete fixtures used by witnesses -/

/-- An environment whose build hook always fails with message `boom`. -/
def failingBuildEnv : ProbeEnv :=
  { build := fun _ _ => BuildOutcome.fail { msg := "boom" }
    probe := fun _ _ => none }

/-- An environment whose build hook always succeeds (client 7) and whose
probe always succeeds. -/
def okEnv : ProbeEnv :=
  { build := fun _ _ => BuildOutcome.ok 7
    probe := fun _ _ => none }

/-- An environment whose first build fails and later builds succeed
(client 3); probe always succeeds. -/
def flakyEnv : ProbeEnv :=
  { build := fun _ n => if n = 0 then BuildOutcome.fail { msg := "boom" }
      else BuildOutcome.ok 3
    probe := fun _ _ => none }

/-- A validator that always reports valid credentials. -/
def validValidator : BucketValidator := fun _ _ =>
  { isValid := true, message := "ok", checkedAt := 1 }

/-- A validator that always reports invalid credentials. -/
def invalidValidator : BucketValidator := fun _ _ =>
  { isValid := false, message := "bad", checkedAt := 2 }

/-- A manager with the two endpoints `one` (valid) and `two` (invalid). -/
def vmTwo : ValidatorManager :=
  { validators := [("one", validValidator), ("two", invalidValidator)]
    timeout := 30 }

/-- A background context that is never canceled. -/
def ctx0 : GoContext := {}

/-! ## Theorems -/

/-- `getClient` with a cached client returns it unchanged and does not
invoke the build hook. -/
theorem getClient_cached (env : ProbeEnv) (ctx : GoContext)
    (s : ValidatorState) (b c : Nat) (hc : s.client = some c) :
    getClient env ctx s b = (Except.ok c, s, b) := by
  simp [getClient, hc]

/-- `getClient` with an empty slot and a succeeding build caches the new
client and counts one build-hook invocation. -/
theorem getClient_build_ok (env : ProbeEnv) (ctx : GoContext)
    (s : ValidatorState) (b c : Nat) (hs : s.client = none)
    (hb : env.build ctx b = BuildOutcome.ok c) :
    getClient env ctx s b = (Except.ok c, { client := some c }, b + 1) := by
  simp [getClient, hs, hb]

/-- `getClient` with an empty slot and a failing build caches nothing and
counts one build-hook invocation. -/
theorem getClient_build_fail (env : ProbeEnv) (ctx : GoContext)
    (s : ValidatorState) (b : Nat) (e : GoError) (hs : s.client = none)
    (hb : env.build ctx b = BuildOutcome.fail e) :
    getClient env ctx s b = (Except.error e, s, b + 1) := by
  simp [getClient, hs, hb]

/-- The state and build count `ValidateKeys` returns are exactly those
`getClient` produced: the probe leg never touches either. -/
theorem ValidateKeys_state_builds (env : ProbeEnv) (s : ValidatorState)
    (b : Nat) (ctx : GoContext) (t now el : Nat) :
    (ValidateKeys env s b ctx t now el).state
      = (getClient env (contextWithTimeout ctx t) s b).2.1 ∧
    (ValidateKeys env s b ctx t now el).builds
      = (getClient env (contextWithTimeout ctx t) s b).2.2 := by
  rcases hg : getClient env (contextWithTimeout ctx t) s b with ⟨r, s2, b2⟩
  cases r with
  | error e => simp [ValidateKeys, hg]
  | ok c =>
    cases hp : env.probe (contextWithTimeout ctx t) c <;>
      simp [ValidateKeys, hg, hp]

/-- The classifier never produces the `config_error` tag: that tag is
reserved for client-build failures, which bypass the classifier. -/
theorem classifyHTTPFallback_ne_config (e : GoError) :
    classifyHTTPFallback e ≠ errorTypeConfig := by
  unfold classifyHTTPFallback
  split
  · split_ifs <;> decide
  · decide

theorem classifyValidationError_ne_config (e : GoError) :
    classifyValidationError (some e) ≠ errorTypeConfig := by
  have h56 := classifyHTTPFallback_ne_config e
  simp only [classifyValidationError]
  repeat' split
  all_goals first | exact h56 | decide

/-- C2: when the client slot is empty and the client-build hook returns an
error, `ValidateKeys` returns `is_valid=false`, error type `config_error`,
message `Failed to create AWS client: <err>`, never issues the probe, and
its error type is not the classifier's verdict on the build error. -/
theorem validateKeys_build_failure (env : ProbeEnv) (s : ValidatorState)
    (b : Nat) (ctx : GoContext) (t now el : Nat) (e : GoError)
    (hs : s.client = none)
    (hb : env.build (contextWithTimeout ctx t) b = BuildOutcome.fail e) :
    (ValidateKeys env s b ctx t now el).result.isValid = false ∧
    (ValidateKeys env s b ctx t now el).result.errorType = "config_error" ∧
    (ValidateKeys env s b ctx t now el).result.message
      = "Failed to create AWS client: " ++ e.msg ∧
    (ValidateKeys env s b ctx t now el).probes = 0 ∧
    (ValidateKeys env s b ctx t now el).result.errorType
      ≠ classifyValidationError (some e) := by
  have hg := getClient_build_fail env (contextWithTimeout ctx t) s b e hs hb
  have hne := classifyValidationError_ne_config e
  refine ⟨?_, ?_, ?_, ?_, ?_⟩
  · simp [ValidateKeys, hg]
  · simp [ValidateKeys, hg, errorTypeConfig]
  · simp [ValidateKeys, hg]
  · simp [ValidateKeys, hg]
  · simp only [ValidateKeys, hg]
    intro hcontra
    exact hne (by simpa [errorTypeConfig] using hcontra.symm)

/-- C2 witness: a fresh validator against an always-failing build hook. -/
theorem validateKeys_build_failure_witness :
    (ValidateKeys failingBuildEnv {} 0 {} 1000 5 7).result.isValid = false ∧
    (ValidateKeys failingBuildEnv {} 0 {} 1000 5 7).result.errorType
      = "config_error" ∧
    (ValidateKeys failingBuildEnv {} 0 {} 1000 5 7).result.message
      = "Failed to create AWS client: " ++ "boom" ∧
    (ValidateKeys failingBuildEnv {} 0 {} 1000 5 7).probes = 0 ∧
    (ValidateKeys failingBuildEnv {} 0 {} 1000 5 7).result.errorType
      ≠ classifyValidationError (some { msg := "boom" }) :=
  validateKeys_build_failure failingBuildEnv {} 0 {} 1000 5 7 { msg := "boom" }
    rfl rfl

/-- The HTTP-status tail of the Go classifier agrees with steps 5-6 of the
spec's procedure. -/
theorem classifyHTTPFallback_eq_steps56 (e : GoError) :
    classifyHTTPFallback e = classifySpecProcedure.classifySpecSteps56 e := by
  cases h : e.httpStatus with
  | none =>
    simp [classifyHTTPFallback, classifySpecProcedure.classifySpecSteps56, h,
      errorTypeUnknown]
  | some status =>
    simp only [classifyHTTPFallback, classifySpecProcedure.classifySpecSteps56, h,
      Option.some.injEq, errorTypeForbidden, errorTypeNotFound, errorTypeTimeout,
      errorTypeUnknown]

/-- C1: `classifyValidationError` equals the specified six-step,
first-match-wins decision procedure (nil → empty tag; deadline sentinel →
timeout; cancellation sentinel → canceled; network error → timeout/network
by its timeout flag; case-insensitive API code groups; HTTP status 403/404/
504; otherwise unknown); and for every error that matches a structural
sentinel/network shape and also carries an API code, the structural
classification wins: erasing the API code does not change the result. -/
theorem classifyValidationError_correct :
    (∀ e : Option GoError, classifyValidationError e = classifySpecProcedure e) ∧
    (∀ e : GoError,
      e.isDeadlineExceeded = true ∨ e.isCanceled = true ∨ e.netError.isSome = true →
      classifyValidationError (some e) =
        classifyValidationError (some { e with apiErrorCode := none })) := by
  constructor
  · intro e
    cases e with
    | none => rfl
    | some e =>
      obtain ⟨m, dl, cn, net, api, hs⟩ := e
      cases dl <;> cases cn <;> cases net <;> cases api <;>
        simp [classifyValidationError, classifySpecProcedure,
          classifyHTTPFallback_eq_steps56, List.contains, goToLower,
          errorTypeTimeout, errorTypeCanceled, errorTypeNetwork,
          errorTypeForbidden, errorTypeNotFound, errorTypeUnknown]
  · intro e h
    obtain ⟨m, dl, cn, net, api, hs⟩ := e
    rcases h with h | h | h
    · subst h
      simp [classifyValidationError]
    · subst h
      simp [classifyValidationError]
    · simp only [Option.isSome_iff_exists] at h
      obtain ⟨b, hb⟩ := h
      subst hb
      cases dl <;> cases cn <;> simp [classifyValidationError]

/-- C1 witness: a deadline-exceeded error that also carries the API code
`AccessDenied` is classified the same as with the code erased. -/
theorem classifyValidationError_correct_witness :
    classifyValidationError
        (some { isDeadlineExceeded := true, apiErrorCode := some "AccessDenied" }) =
      classifyValidationError (some { isDeadlineExceeded := true }) :=
  classifyValidationError_correct.2
    { isDeadlineExceeded := true, apiErrorCode := some "AccessDenied" }
    (Or.inl rfl)

/-- C3: client-cache asymmetry of a single validator. (a) A cached client
is reused as-is: the slot keeps the same client and the build hook is not
invoked. (b) A successful build caches the client, counts one build-hook
invocation, and a second call on the resulting validator does not invoke
the hook again (two calls, at most one build). (c) A failed build caches
nothing, and a second call invokes the hook again. -/
theorem validator_client_cache_asymmetry (env : ProbeEnv)
    (s : ValidatorState) (b : Nat) (ctx ctx2 : GoContext)
    (t t2 now now2 el el2 : Nat) :
    (∀ c, s.client = some c →
      (ValidateKeys env s b ctx t now el).state.client = some c ∧
      (ValidateKeys env s b ctx t now el).builds = b) ∧
    (∀ c, s.client = none →
      env.build (contextWithTimeout ctx t) b = BuildOutcome.ok c →
      (ValidateKeys env s b ctx t now el).state.client = some c ∧
      (ValidateKeys env s b ctx t now el).builds = b + 1 ∧
      (ValidateKeys env (ValidateKeys env s b ctx t now el).state
          (ValidateKeys env s b ctx t now el).builds ctx2 t2 now2 el2).builds
        = b + 1) ∧
    (∀ e, s.client = none →
      env.build (contextWithTimeout ctx t) b = BuildOutcome.fail e →
      (ValidateKeys env s b ctx t now el).state.client = none ∧
      (ValidateKeys env s b ctx t now el).builds = b + 1 ∧
      (ValidateKeys env (ValidateKeys env s b ctx t now el).state
          (ValidateKeys env s b ctx t now el).builds ctx2 t2 now2 el2).builds
        = b + 2) := by
  refine ⟨?_, ?_, ?_⟩
  · intro c hc
    have hg := getClient_cached env (contextWithTimeout ctx t) s b c hc
    have hsb := ValidateKeys_state_builds env s b ctx t now el
    rw [hsb.1, hsb.2, hg]
    exact ⟨hc, rfl⟩
  · intro c hs hb
    have hg := getClient_build_ok env (contextWithTimeout ctx t) s b c hs hb
    have hsb := ValidateKeys_state_builds env s b ctx t now el
    have hstate : (ValidateKeys env s b ctx t now el).state
        = { client := some c } := by rw [hsb.1, hg]
    have hbuilds : (ValidateKeys env s b ctx t now el).builds = b + 1 := by
      rw [hsb.2, hg]
    refine ⟨by rw [hstate], hbuilds, ?_⟩
    have hsb2 := ValidateKeys_state_builds env
      (ValidateKeys env s b ctx t now el).state
      (ValidateKeys env s b ctx t now el).builds ctx2 t2 now2 el2
    rw [hsb2.2, hstate,
      getClient_cached env (contextWithTimeout ctx2 t2) { client := some c }
        (ValidateKeys env s b ctx t now el).builds c rfl, hbuilds]
  · intro e hs hb
    have hg := getClient_build_fail env (contextWithTimeout ctx t) s b e hs hb
    have hsb := ValidateKeys_state_builds env s b ctx t now el
    have hstate : (ValidateKeys env s b ctx t now el).state = s := by
      rw [hsb.1, hg]
    have hbuilds : (ValidateKeys env s b ctx t now el).builds = b + 1 := by
      rw [hsb.2, hg]
    refine ⟨by rw [hstate, hs], hbuilds, ?_⟩
    have hsb2 := ValidateKeys_state_builds env
      (ValidateKeys env s b ctx t now el).state
      (ValidateKeys env s b ctx t now el).builds ctx2 t2 now2 el2
    rw [hsb2.2]
    rw [hstate, hbuilds]
    unfold getClient
    rw [hs]
    cases env.build (contextWithTimeout ctx2 t2) (b + 1) <;> rfl

/-- C3 witness: against an always-succeeding build hook, a fresh validator
caches client 7 on the first call and does not build again on the second;
against a first-failing hook, nothing is cached and the second call builds
again. -/
theorem validator_client_cache_asymmetry_witness :
    ((ValidateKeys okEnv {} 0 ctx0 30 1 2).state.client = some 7 ∧
     (ValidateKeys okEnv {} 0 ctx0 30 1 2).builds = 1 ∧
     (ValidateKeys okEnv (ValidateKeys okEnv {} 0 ctx0 30 1 2).state
        (ValidateKeys okEnv {} 0 ctx0 30 1 2).builds ctx0 30 3 4).builds = 1) ∧
    ((ValidateKeys flakyEnv {} 0 ctx0 30 1 2).state.client = none ∧
     (ValidateKeys flakyEnv {} 0 ctx0 30 1 2).builds = 1 ∧
     (ValidateKeys flakyEnv (ValidateKeys flakyEnv {} 0 ctx0 30 1 2).state
        (ValidateKeys flakyEnv {} 0 ctx0 30 1 2).builds ctx0 30 3 4).builds
       = 2) :=
  ⟨(validator_client_cache_asymmetry okEnv {} 0 ctx0 ctx0 30 30 1 3 2 4).2.1
      7 rfl rfl,
   (validator_client_cache_asymmetry flakyEnv {} 0 ctx0 ctx0 30 30 1 3 2 4).2.2
      { msg := "boom" } rfl rfl⟩

/-- C8 counterexample: with a succeeding build and a succeeding probe, the
result is valid but its message is `AWS credentials are valid`, not the
claimed `credentials are valid`. -/
theorem validateKeys_success_message_counterexample :
    (ValidateKeys okEnv {} 0 ctx0 1000 5 7).result.isValid = true ∧
    (ValidateKeys okEnv {} 0 ctx0 1000 5 7).result.message
      = "AWS credentials are valid" ∧
    (ValidateKeys okEnv {} 0 ctx0 1000 5 7).result.message
      ≠ "credentials are valid" := by
  refine ⟨rfl, rfl, ?_⟩
  decide

/-- C8 (amended): whenever `getClient` yields a client (cached or freshly
built) and the probe succeeds, `ValidateKeys` returns `is_valid=true`,
message exactly `AWS credentials are valid`, an empty error kind, and a
non-negative response time. -/
theorem validateKeys_probe_success (env : ProbeEnv) (s : ValidatorState)
    (b : Nat) (ctx : GoContext) (t now el : Nat) (c : Nat)
    (hc : (getClient env (contextWithTimeout ctx t) s b).1 = Except.ok c)
    (hp : env.probe (contextWithTimeout ctx t) c = none) :
    (ValidateKeys env s b ctx t now el).result.isValid = true ∧
    (ValidateKeys env s b ctx t now el).result.message
      = "AWS credentials are valid" ∧
    (ValidateKeys env s b ctx t now el).result.errorType = "" ∧
    0 ≤ (ValidateKeys env s b ctx t now el).result.responseTimeMs := by
  rcases hg : getClient env (contextWithTimeout ctx t) s b with ⟨r, s2, b2⟩
  rw [hg] at hc
  simp only at hc
  subst hc
  refine ⟨?_, ?_, ?_, ?_⟩ <;> simp [ValidateKeys, hg, hp]

/-- C8 witness: a fresh validator against an always-succeeding build hook
and a succeeding probe. -/
theorem validateKeys_probe_success_witness :
    (ValidateKeys okEnv {} 0 ctx0 1000 5 7).result.isValid = true ∧
    (ValidateKeys okEnv {} 0 ctx0 1000 5 7).result.message
      = "AWS credentials are valid" ∧
    (ValidateKeys okEnv {} 0 ctx0 1000 5 7).result.errorType = "" ∧
    0 ≤ (ValidateKeys okEnv {} 0 ctx0 1000 5 7).result.responseTimeMs :=
  validateKeys_probe_success okEnv {} 0 ctx0 1000 5 7 7 rfl rfl

/-- Looking a registered name up in the aggregate built by mapping each
validator to its result finds exactly that validator's result, provided
the registered names are distinct (as the keys of a Go map are). -/
theorem lookup_map_results (ctx : GoContext) (t : Nat) :
    ∀ (l : List (String × BucketValidator)) (name : String)
      (v : BucketValidator),
      (l.map Prod.fst).Nodup → (name, v) ∈ l →
      (l.map fun p => (p.1, p.2 ctx t)).lookup name = some (v ctx t) := by
  intro l
  induction l with
  | nil => intro name v _ hmem; cases hmem
  | cons hd tl ih =>
    intro name v hnd hmem
    rcases List.mem_cons.mp hmem with heq | htl
    · simp [List.lookup, ← heq]
    · have hne : name ≠ hd.1 := by
        intro hcontra
        have : name ∈ tl.map Prod.fst :=
          List.mem_map.mpr ⟨(name, v), htl, rfl⟩
        rw [List.map_cons, List.nodup_cons] at hnd
        exact hnd.1 (hcontra ▸ this)
      have hbeq : (name == hd.1) = false := by
        simp [hne]
      simp only [List.map_cons, List.lookup, hbeq]
      exact ih name v (by
        rw [List.map_cons, List.nodup_cons] at hnd
        exact hnd.2) htl

/-- C4: `ValidateAll` returns one entry per registered endpoint: its key
list is exactly the registered name list (hence the result count equals
the endpoint count), and when the registered names are distinct, looking
up any registered endpoint finds precisely that endpoint's own
`validateKeys` result under the manager's configured timeout — no entry is
missing, removed, or altered by other endpoints. -/
theorem validateAll_complete (vm : ValidatorManager) (ctx : GoContext)
    (now : Nat) :
    (ValidateAll vm ctx now).results.map Prod.fst
      = vm.validators.map Prod.fst ∧
    (ValidateAll vm ctx now).results.length = GetEndpointCount vm ∧
    (∀ name v, (vm.validators.map Prod.fst).Nodup →
      (name, v) ∈ vm.validators →
      (ValidateAll vm ctx now).results.lookup name
        = some (v ctx vm.timeout)) := by
  refine ⟨?_, ?_, ?_⟩
  · simp [ValidateAll, List.map_map, Function.comp]
  · simp [ValidateAll, GetEndpointCount]
  · intro name v hnd hmem
    exact lookup_map_results ctx vm.timeout vm.validators name v hnd hmem

/-- C4 witness: the manager with endpoints `one` (valid) and `two`
(invalid) yields a size-2 aggregate containing each endpoint's own result. -/
theorem validateAll_complete_witness :
    (ValidateAll vmTwo ctx0 9).results.length = 2 ∧
    (ValidateAll vmTwo ctx0 9).results.lookup "one"
      = some (validValidator ctx0 vmTwo.timeout) ∧
    (ValidateAll vmTwo ctx0 9).results.lookup "two"
      = some (invalidValidator ctx0 vmTwo.timeout) :=
  ⟨(validateAll_complete vmTwo ctx0 9).2.1.trans rfl,
   (validateAll_complete vmTwo ctx0 9).2.2 "one" validValidator (by decide)
     (by simp [vmTwo]),
   (validateAll_complete vmTwo ctx0 9).2.2 "two" invalidValidator (by decide)
     (by simp [vmTwo])⟩

/-- C6: for a name absent from the validator map, `ValidateEndpoint`
returns the synthesized result `is_valid=false`, message
`endpoint '<name>' not found`, `checked_at` the current time, and no
error kind; for a registered name it delegates to that validator with the
manager's timeout. -/
theorem validateEndpoint_lookup (vm : ValidatorManager) (ctx : GoContext)
    (name : String) (now : Nat) :
    (vm.validators.lookup name = none →
      ValidateEndpoint vm ctx name now =
        { isValid := false
          message := "endpoint '" ++ name ++ "' not found"
          checkedAt := now
          responseTimeMs := 0
          errorType := ""
          duration := 0 }) ∧
    (∀ v, vm.validators.lookup name = some v →
      ValidateEndpoint vm ctx name now = v ctx vm.timeout) := by
  constructor
  · intro h
    simp [ValidateEndpoint, h]
  · intro v h
    simp [ValidateEndpoint, h]

/-- C6 witness: on the two-endpoint manager, the unregistered name
`missing` yields the synthesized not-found result, and the registered name
`one` delegates to its validator. -/
theorem validateEndpoint_lookup_witness :
    (ValidateEndpoint vmTwo ctx0 "missing" 4 =
      { isValid := false
        message := "endpoint '" ++ "missing" ++ "' not found"
        checkedAt := 4
        responseTimeMs := 0
        errorType := ""
        duration := 0 }) ∧
    ValidateEndpoint vmTwo ctx0 "one" 4 = validValidator ctx0 vmTwo.timeout :=
  ⟨(validateEndpoint_lookup vmTwo ctx0 "missing" 4).1 rfl,
   (validateEndpoint_lookup vmTwo ctx0 "one" 4).2 validValidator rfl⟩

/-- The handler's fold over the results accumulates exactly the number of
valid and invalid results. -/
theorem foldl_counts (rs : List (String × ValidationResult)) :
    ∀ a b : Nat,
      rs.foldl (fun acc p => if p.2.isValid then (acc.1 + 1, acc.2)
          else (acc.1, acc.2 + 1)) (a, b)
        = (a + countValid rs, b + countInvalid rs) := by
  induction rs with
  | nil => intro a b; simp [countValid, countInvalid]
  | cons hd tl ih =>
    intro a b
    simp only [List.foldl_cons]
    by_cases h : hd.2.isValid
    · rw [if_pos h, ih]
      simp [countValid, countInvalid, List.filter_cons, h, Prod.mk.injEq]
      omega
    · have hb : hd.2.isValid = false := by
        revert h; cases hd.2.isValid <;> simp
      rw [if_neg h, ih]
      simp [countValid, countInvalid, List.filter_cons, hb, Prod.mk.injEq]
      omega

/-- The Go status-code selection equals the spec's pure function of the
summary. -/
theorem statusCode_eq_statusFromSummary (s f : Nat) :
    (if f > 0 ∧ s > 0 then 207 else if f > 0 then 401 else 200)
      = statusFromSummary s f := by
  unfold statusFromSummary
  split_ifs <;> omega

/-- C5: the `/validate` handler's status is determined by the derived
summary — 200 when `failed = 0`, 207 when mixed, 401 when all failed —
where `total` is the number of results and `successful`/`failed` count the
valid/invalid results; any non-POST method gets 405 without running
`ValidateAll`. -/
theorem validateAllHandler_status (vm : ValidatorManager) (ctx : GoContext)
    (now : Nat) :
    (∀ method, method ≠ "POST" →
      handleValidateAll vm method ctx now
        = { status := 405, ranValidateAll := false, summary := none }) ∧
    (handleValidateAll vm "POST" ctx now).ranValidateAll = true ∧
    (handleValidateAll vm "POST" ctx now).summary
      = some ((ValidateAll vm ctx now).results.length,
          countValid (ValidateAll vm ctx now).results,
          countInvalid (ValidateAll vm ctx now).results) ∧
    (handleValidateAll vm "POST" ctx now).status
      = statusFromSummary (countValid (ValidateAll vm ctx now).results)
          (countInvalid (ValidateAll vm ctx now).results) := by
  refine ⟨?_, ?_, ?_, ?_⟩
  · intro method h
    simp [handleValidateAll, h]
  · simp [handleValidateAll]
  · simp only [handleValidateAll]
    rw [if_neg (by simp), foldl_counts]
    simp
  · simp only [handleValidateAll]
    rw [if_neg (by simp), foldl_counts, ← statusCode_eq_statusFromSummary]
    simp

/-- C5 witness: a GET on `/validate` is rejected with 405 and no
validation runs. -/
theorem validateAllHandler_status_witness :
    handleValidateAll vmTwo "GET" ctx0 9
      = { status := 405, ranValidateAll := false, summary := none } :=
  (validateAllHandler_status vmTwo ctx0 9).1 "GET" (by decide)

/-- C7: the `/validate/{name}` handler keeps 400 and 401 as separate
branches: methods other than GET/POST get 405; an empty or missing name
segment gets 400 before any validation runs (nothing is validated); a
well-formed request naming an unknown endpoint runs the validation, is
modeled as the invalid not-found result, and gets 401; a valid result
gets 200. -/
theorem validateEndpointHandler_branches (vm : ValidatorManager)
    (ctx : GoContext) (now : Nat) (method path : String) :
    (method ≠ "POST" ∧ method ≠ "GET" →
      handleValidateEndpoint vm method path ctx now
        = { status := 405, validated := none, result := none }) ∧
    ((method = "POST" ∨ method = "GET") →
      (((goSplitSlash path).length < 3 ∨
          (goSplitSlash path).getLastD "" = "") →
        handleValidateEndpoint vm method path ctx now
          = { status := 400, validated := none, result := none }) ∧
      (3 ≤ (goSplitSlash path).length →
        (goSplitSlash path).getLastD "" ≠ "" →
        (vm.validators.lookup ((goSplitSlash path).getLastD "") = none →
          handleValidateEndpoint vm method path ctx now
            = { status := 401
                validated := some ((goSplitSlash path).getLastD "")
                result := some
                  { isValid := false
                    message := "endpoint '" ++
                      (goSplitSlash path).getLastD "" ++ "' not found"
                    checkedAt := now } }) ∧
        ((ValidateEndpoint vm ctx ((goSplitSlash path).getLastD "") now).isValid
            = true →
          (handleValidateEndpoint vm method path ctx now).status = 200))) := by
  constructor
  · intro h
    simp [handleValidateEndpoint, h.1, h.2]
  · intro hm
    have hguard : ¬(method ≠ "POST" ∧ method ≠ "GET") := by
      rcases hm with h | h <;> simp [h]
    constructor
    · intro hcond
      by_cases hl : (goSplitSlash path).length < 3
      · simp [handleValidateEndpoint, hguard, hl]
      · rcases hcond with h | hempty
        · exact absurd h hl
        · rw [List.getLastD_eq_getLast?] at hempty
          simp [handleValidateEndpoint, hguard, hl, hempty]
    · intro hlen hname
      have hl : ¬((goSplitSlash path).length < 3) := by omega
      rw [List.getLastD_eq_getLast?] at hname
      constructor
      · intro hlookup
        rw [List.getLastD_eq_getLast?] at hlookup
        simp [handleValidateEndpoint, hguard, hl, hname, ValidateEndpoint,
          hlookup]
      · intro hvalid
        rw [List.getLastD_eq_getLast?] at hvalid
        simp [handleValidateEndpoint, hguard, hl, hname, hvalid]

/-- C7 witness: on the two-endpoint manager, DELETE gets 405; a GET on
`/validate/` (empty name) gets 400 with nothing validated; a GET on
`/validate/missing` gets 401 with the not-found result; a POST on
`/validate/one` gets 200. -/
theorem validateEndpointHandler_branches_witness :
    handleValidateEndpoint vmTwo "DELETE" "/validate/one" ctx0 4
      = { status := 405, validated := none, result := none } ∧
    handleValidateEndpoint vmTwo "GET" "/validate/" ctx0 4
      = { status := 400, validated := none, result := none } ∧
    handleValidateEndpoint vmTwo "GET" "/validate/missing" ctx0 4
      = { status := 401
          validated := some "missing"
          result := some
            { isValid := false
              message := "endpoint '" ++ "missing" ++ "' not found"
              checkedAt := 4 } } ∧
    (handleValidateEndpoint vmTwo "POST" "/validate/one" ctx0 4).status
      = 200 :=
  ⟨(validateEndpointHandler_branches vmTwo ctx0 4 "DELETE" "/validate/one").1
      ⟨by decide, by decide⟩,
   ((validateEndpointHandler_branches vmTwo ctx0 4 "GET" "/validate/").2
      (Or.inr rfl)).1 (Or.inr (by decide)),
   (((validateEndpointHandler_branches vmTwo ctx0 4 "GET"
        "/validate/missing").2 (Or.inr rfl)).2 (by decide) (by decide)).1 rfl,
   (((validateEndpointHandler_branches vmTwo ctx0 4 "POST"
        "/validate/one").2 (Or.inl rfl)).2 (by decide) (by decide)).2 rfl⟩

/-- C10: with a GET or POST method, the `/validate/{name}` handler answers
400 exactly when the path has fewer than three slash-separated parts or
its last segment is empty; and the endpoint name is the last path segment,
so `/validate/a/b` validates endpoint `b`. -/
theorem validateEndpointHandler_lastSegment (vm : ValidatorManager)
    (ctx : GoContext) (now : Nat) (method path : String)
    (hm : method = "GET" ∨ method = "POST") :
    ((handleValidateEndpoint vm method path ctx now).status = 400 ↔
      ((goSplitSlash path).length < 3 ∨
        (goSplitSlash path).getLastD "" = "")) ∧
    (handleValidateEndpoint vm method "/validate/a/b" ctx now).validated
      = some "b" := by
  have hguard : ¬(method ≠ "POST" ∧ method ≠ "GET") := by
    rcases hm with h | h <;> simp [h]
  constructor
  · constructor
    · intro hstatus
      by_contra hcond
      push_neg at hcond
      obtain ⟨hlen, hname⟩ := hcond
      have hl : ¬((goSplitSlash path).length < 3) := by omega
      revert hstatus
      simp only [handleValidateEndpoint, if_neg hguard, if_neg hl,
        if_neg hname]
      cases hv : (ValidateEndpoint vm ctx ((goSplitSlash path).getLastD "")
          now).isValid <;> simp [hv]
    · intro hcond
      by_cases hl : (goSplitSlash path).length < 3
      · simp [handleValidateEndpoint, hguard, hl]
      · rcases hcond with h | hempty
        · exact absurd h hl
        · rw [List.getLastD_eq_getLast?] at hempty
          simp [handleValidateEndpoint, hguard, hl, hempty]
  · have hsp : goSplitSlash "/validate/a/b" = ["", "validate", "a", "b"] := rfl
    simp [handleValidateEndpoint, hguard, hsp]

/-- C10 witness: a GET on `/validate/a/b` validates endpoint `b`. -/
theorem validateEndpointHandler_lastSegment_witness :
    (handleValidateEndpoint vmTwo "GET" "/validate/a/b" ctx0 4).validated
      = some "b" :=
  (validateEndpointHandler_lastSegment vmTwo ctx0 4 "GET" "/validate/a/b"
    (Or.inl rfl)).2

/-- C9: with a zero or negative auto-validation interval,
`startAutoValidation` never invokes `ValidateAll` — no scheduler task is
started — for any context-cancellation history and any number of elapsed
ticks. -/
theorem startAutoValidation_nonpositive_never_validates (interval : Int)
    (done : Nat → Bool) (ticks : Nat) (h : interval ≤ 0) :
    startAutoValidation interval done ticks = 0 := by
  simp [startAutoValidation, h]

/-- C9 witness: interval 0 with a never-canceled context and five elapsed
ticks performs no validation. -/
theorem startAutoValidation_nonpositive_never_validates_witness :
    startAutoValidation 0 (fun _ => false) 5 = 0 :=
  startAutoValidation_nonpositive_never_validates 0 (fun _ => false) 5
    (by decide)

end KeyAwsExporter
